import Mathlib

/-!
Verification of the AgenticRagForIP ingestion pipeline against its
natural-language specification.  The Python sources are shallowly embedded:
pure functions become Lean functions, the file system and the remote
Weaviate store become explicit parameters, and fallible code returns
`Option`/`Except`.
-/

/-! ## Python string primitives

`str.strip()` removes leading and trailing whitespace; `str.strip(chars)`
removes leading and trailing characters drawn from the set `chars`.
-/

/-- Whitespace characters recognised by Python `str.strip()` (ASCII part). -/
def isPyWS (c : Char) : Bool :=
  c = ' ' || c = '\t' || c = '\n' || c = '\r' || c = '\x0b' || c = '\x0c'

/-- Drop leading whitespace from a character list. -/
def stripLeftL (l : List Char) : List Char := l.dropWhile isPyWS

/-- Drop trailing whitespace from a character list. -/
def stripRightL (l : List Char) : List Char :=
  (l.reverse.dropWhile isPyWS).reverse

/-- Python `s.strip()`: remove leading and trailing whitespace. -/
def pyStrip (s : String) : String := ⟨stripRightL (stripLeftL s.data)⟩

/-- Trailing-whitespace-only trim (used to state the spec's wording). -/
def pyStripRight (s : String) : String := ⟨stripRightL s.data⟩

/-- Python `s.strip(chars)`: remove leading and trailing characters that are
members of the character set `chars`. -/
def pyStripChars (chars : String) (s : String) : String :=
  ⟨((s.data.dropWhile (· ∈ chars.data)).reverse.dropWhile (· ∈ chars.data)).reverse⟩

/-- Python `str(x)` on an optional node value: `None` prints as `"None"`. -/
def pyShow : Option String → String
  | none => "None"
  | some s => s

/-- Concatenation of a list of strings (left to right). -/
def strConcat : List String → String
  | [] => ""
  | s :: l => s ++ strConcat l

/-! ## Generic list chunking

`iter(lambda: f.read(4096), b"")` yields the file's bytes in successive
blocks of (at most) 4096 bytes; `chunkAux` models this with an explicit
fuel argument so that the recursion is structural. -/

/-- Split a list into consecutive blocks of size `k`; `fuel` bounds the
number of blocks produced (taking `fuel = l.length` suffices for `k > 0`). -/
def chunkAux (k : Nat) : Nat → List Nat → List (List Nat)
  | 0, _ => []
  | _ + 1, [] => []
  | fuel + 1, l => l.take k :: chunkAux k fuel (l.drop k)

/-! ## MD5 (model of `hashlib.md5`)

`compute_file_hash` in `src/ingest_pdfs.py` feeds file blocks into a
`hashlib.md5()` accumulator.  `hashlib`'s documented semantics is that
successive `update` calls hash the concatenation of all data seen, and
`hexdigest` returns the 32-character lowercase hex digest.  The MD5
algorithm itself is modelled executably below (RFC 1321), with 32-bit
words as `Nat` reduced modulo `2 ^ 32`. -/

/-- The word modulus of MD5, `2 ^ 32`. -/
def m32 : Nat := 4294967296

/-- Bitwise complement within 32 bits. -/
def not32 (x : Nat) : Nat := x ^^^ 4294967295

/-- 32-bit left rotation. -/
def rotl32 (x s : Nat) : Nat := ((x <<< s) ||| (x >>> (32 - s))) % m32

/-- The 64 MD5 sine-table constants `K[i]` (RFC 1321). -/
def md5K : List Nat :=
  [0xd76aa478, 0xe8c7b756, 0x242070db, 0xc1bdceee,
   0xf57c0faf, 0x4787c62a, 0xa8304613, 0xfd469501,
   0x698098d8, 0x8b44f7af, 0xffff5bb1, 0x895cd7be,
   0x6b901122, 0xfd987193, 0xa679438e, 0x49b40821,
   0xf61e2562, 0xc040b340, 0x265e5a51, 0xe9b6c7aa,
   0xd62f105d, 0x02441453, 0xd8a1e681, 0xe7d3fbc8,
   0x21e1cde6, 0xc33707d6, 0xf4d50d87, 0x455a14ed,
   0xa9e3e905, 0xfcefa3f8, 0x676f02d9, 0x8d2a4c8a,
   0xfffa3942, 0x8771f681, 0x6d9d6122, 0xfde5380c,
   0xa4beea44, 0x4bdecfa9, 0xf6bb4b60, 0xbebfbc70,
   0x289b7ec6, 0xeaa127fa, 0xd4ef3085, 0x04881d05,
   0xd9d4d039, 0xe6db99e5, 0x1fa27cf8, 0xc4ac5665,
   0xf4292244, 0x432aff97, 0xab9423a7, 0xfc93a039,
   0x655b59c3, 0x8f0ccc92, 0xffeff47d, 0x85845dd1,
   0x6fa87e4f, 0xfe2ce6e0, 0xa3014314, 0x4e0811a1,
   0xf7537e82, 0xbd3af235, 0x2ad7d2bb, 0xeb86d391]

/-- The 64 MD5 per-round left-rotation amounts `s[i]`. -/
def md5S : List Nat :=
  [7, 12, 17, 22, 7, 12, 17, 22, 7, 12, 17, 22, 7, 12, 17, 22,
   5, 9, 14, 20, 5, 9, 14, 20, 5, 9, 14, 20, 5, 9, 14, 20,
   4, 11, 16, 23, 4, 11, 16, 23, 4, 11, 16, 23, 4, 11, 16, 23,
   6, 10, 15, 21, 6, 10, 15, 21, 6, 10, 15, 21, 6, 10, 15, 21]

/-- The MD5 round mixing function (F, G, H, I according to the round). -/
def md5F (i b c d : Nat) : Nat :=
  if i < 16 then (b &&& c) ||| (not32 b &&& d)
  else if i < 32 then (d &&& b) ||| (not32 d &&& c)
  else if i < 48 then (b ^^^ c) ^^^ d
  else c ^^^ (b ||| not32 d)

/-- The MD5 message-word index `g` for operation `i`. -/
def md5G (i : Nat) : Nat :=
  if i < 16 then i
  else if i < 32 then (5 * i + 1) % 16
  else if i < 48 then (3 * i + 5) % 16
  else (7 * i) % 16

/-- Decode a byte list into 32-bit little-endian words. -/
def bytesToWords : List Nat → List Nat
  | b0 :: b1 :: b2 :: b3 :: rest =>
      (b0 + 256 * b1 + 65536 * b2 + 16777216 * b3) :: bytesToWords rest
  | _ => []

/-- One of the 64 MD5 operations, acting on the state `(a, b, c, d)`. -/
def md5Step (M : List Nat) (st : Nat × Nat × Nat × Nat) (i : Nat) :
    Nat × Nat × Nat × Nat :=
  let (a, b, c, d) := st
  let f := (md5F i b c d + a + md5K.getD i 0 + M.getD (md5G i) 0) % m32
  (d, (b + rotl32 f (md5S.getD i 0)) % m32, b, c)

/-- Process one 64-byte block, updating the chaining state. -/
def md5Compress (st : Nat × Nat × Nat × Nat) (block : List Nat) :
    Nat × Nat × Nat × Nat :=
  let M := bytesToWords block
  let (a, b, c, d) := st
  let r := (List.range 64).foldl (md5Step M) st
  ((a + r.1) % m32, (b + r.2.1) % m32, (c + r.2.2.1) % m32, (d + r.2.2.2) % m32)

/-- Little-endian byte encoding of a value in `n` bytes. -/
def bytesLE : Nat → Nat → List Nat
  | 0, _ => []
  | n + 1, v => v % 256 :: bytesLE n (v / 256)

/-- MD5 padding: a `0x80` byte, zeros to 56 mod 64, then the bit length as
an 8-byte little-endian quantity. -/
def md5Pad (msg : List Nat) : List Nat :=
  let len := msg.length
  let padZeros := (64 + 56 - (len + 1) % 64) % 64
  msg ++ [0x80] ++ List.replicate padZeros 0 ++ bytesLE 8 ((len * 8) % (2 ^ 64))

/-- The MD5 chaining digest of a byte list. -/
def md5Digest (msg : List Nat) : Nat × Nat × Nat × Nat :=
  let padded := md5Pad msg
  (chunkAux 64 padded.length padded).foldl md5Compress
    (0x67452301, 0xefcdab89, 0x98badcfe, 0x10325476)

/-- Little-endian byte output of one 32-bit state word. -/
def wordBytesLE (w : Nat) : List Nat :=
  [w % 256, (w >>> 8) % 256, (w >>> 16) % 256, (w >>> 24) % 256]

/-- The 16 digest bytes of MD5. -/
def md5Bytes (msg : List Nat) : List Nat :=
  let (a, b, c, d) := md5Digest msg
  wordBytesLE a ++ wordBytesLE b ++ wordBytesLE c ++ wordBytesLE d

/-- Lowercase hexadecimal alphabet. -/
def hexChars : List Char := "0123456789abcdef".data

/-- The hex digit of `n % 16`. -/
def hexDigit (n : Nat) : Char := hexChars.getD (n % 16) '0'

/-- Two-character lowercase hex rendering of one byte. -/
def byteHex (b : Nat) : List Char := [hexDigit (b / 16), hexDigit b]

/-- Hex string of a byte list. -/
def hexOfBytes (bs : List Nat) : String := ⟨(bs.map byteHex).flatten⟩

/-- Model of `hashlib.md5(msg).hexdigest()`: the 32-character lowercase hex
digest. -/
def md5Hex (msg : List Nat) : String := hexOfBytes (md5Bytes msg)

/-- Boolean check that every character of a string is a lowercase hex
digit. -/
def isHexString (s : String) : Bool := decide (∀ c ∈ s.data, c ∈ hexChars)

/-! ## `src/XMLPatent.py` — the Patent Field Extractor

A direct child of the `description` node (or a `p` node under `abstract`)
is modelled by its node type, its `id` attribute (minidom's `getAttribute`
returns `""` when the attribute is absent), and the `nodeValue`s of its
child nodes (`none` for valueless nodes such as elements).  Python code
that raises an uncaught exception is modelled by returning `none`. -/

/-- A DOM node as seen by `pullDesc`/`pullAbs`: `nodeType` (1 = element),
the `id` attribute, and the `nodeValue` of each child node in order. -/
structure Node where
  nodeType : Nat
  attrId : String
  childValues : List (Option String)
deriving DecidableEq

/-- First character of a string, if any; `idFirst s = some c` models the
Python truthiness-guarded check `s and s[0] == c`. -/
def idFirst (s : String) : Option Char := s.data.head?

/-- The loop body of `pullDesc` (`src/XMLPatent.py` lines 29–35).  For each
element child it indexes `childNodes[0]` (an `IndexError` on a childless
element is modelled as `none`); when that first child's `nodeValue` is not
`None`, a non-empty `id` starting with `h` appends the stripped text plus
`": "`, a non-empty `id` starting with `p` appends the stripped text plus
`" "`, and anything else is skipped. -/
def descLoop : List Node → String → Option String
  | [], acc => some acc
  | c :: cs, acc =>
    if c.nodeType = 1 then
      match c.childValues with
      | [] => none
      | none :: _ => descLoop cs acc
      | some t :: _ =>
        if idFirst c.attrId = some 'h' then descLoop cs (acc ++ pyStrip t ++ ": ")
        else if idFirst c.attrId = some 'p' then descLoop cs (acc ++ pyStrip t ++ " ")
        else descLoop cs acc
    else descLoop cs acc

/-- Model of `pullDesc` (`src/XMLPatent.py` lines 25–36), given the direct children
of the `description` node; the accumulated string is finally `strip()`ped. -/
def pullDesc (cs : List Node) : Option String :=
  (descLoop cs "").map pyStrip

/-- The loop body of `pullAbs` (`src/XMLPatent.py` lines 41–42): for every
`p` node under `abstract`, `str(p.childNodes[0].nodeValue).strip()` plus a
space (an `IndexError` on a childless `p` is modelled as `none`; `str` of
`None` is `"None"`). -/
def absLoop : List Node → String → Option String
  | [], acc => some acc
  | p :: ps, acc =>
    match p.childValues with
    | [] => none
    | v :: _ => absLoop ps (acc ++ pyStrip (pyShow v) ++ " ")

/-- Model of `pullAbs` (`src/XMLPatent.py` lines 38–43), given the `p` nodes under
the `abstract` node. -/
def pullAbs (ps : List Node) : Option String :=
  (absLoop ps "").map pyStrip

/-- Model of `pullMeta`'s ID field (`src/XMLPatent.py` line 51):
`headN.getAttribute("file").strip(".XML")` — Python `str.strip(chars)`
strips the character set, not the suffix. -/
def pullMetaID (fileAttr : String) : String := pyStripChars ".XML" fileAttr

/-- Modelled from the spec: the claimed per-child contribution for the
description section — an element child with non-empty text contributes its
trimmed text followed by `": "` when its id begins with `h`, its trimmed
text followed by `" "` when its id begins with `p`, and nothing otherwise
(children with no recognised id, no id attribute, or no text are skipped). -/
def specPiece (c : Node) : String :=
  if c.nodeType = 1 then
    match c.childValues with
    | [] => ""
    | none :: _ => ""
    | some t :: _ =>
      if t = "" then ""
      else if idFirst c.attrId = some 'h' then pyStrip t ++ ": "
      else if idFirst c.attrId = some 'p' then pyStrip t ++ " "
      else ""
  else ""

/-- Modelled from the spec, verbatim reading: the concatenated pieces with
only trailing whitespace trimmed ("the final string is trimmed of trailing
whitespace"). -/
def specDescStated (cs : List Node) : String :=
  pyStripRight (strConcat (cs.map specPiece))

/-- Modelled from the spec, amended reading: the concatenated pieces with
leading and trailing whitespace trimmed (matching Python `strip()`). -/
def specDesc (cs : List Node) : String :=
  pyStrip (strConcat (cs.map specPiece))

/-- Well-formedness of one description child, under which the extractor is
total and agrees with the spec's algorithm: an element child has at least
one child node and its first child node's value is not the empty string. -/
def wfChild (c : Node) : Prop :=
  c.nodeType = 1 → c.childValues ≠ [] ∧ c.childValues.head? ≠ some (some "")

instance (c : Node) : Decidable (wfChild c) := by
  unfold wfChild; infer_instance

/-! ## `src/ingest_pdfs.py` — Fingerprinter, Existing-Content Index, Planner

The file system is a function from path to byte content; the Weaviate
GraphQL responses are explicit values; a raised exception is an
`Except.error`. -/

/-- The block reads of `compute_file_hash`
(`for block in iter(lambda: f.read(4096), b"")`). -/
def readBlocks (content : List Nat) : List (List Nat) :=
  chunkAux 4096 content.length content

/-- Model of `compute_file_hash` (`src/ingest_pdfs.py` lines 34–43): feed each
4096-byte block into the MD5 accumulator (successive `hasher.update`
calls hash the concatenation) and return the hex digest. -/
def compute_file_hash (content : List Nat) : String :=
  md5Hex ((readBlocks content).foldl (fun acc block => acc ++ block) [])

/-- The fingerprint of the file at `p` in file system `fs`. -/
def hashFile (fs : String → List Nat) (p : String) : String :=
  compute_file_hash (fs p)

/-- One page of the Weaviate fingerprint query: whether
`res["data"]["Get"]` is present, the `file_hash` values of the returned
objects, and whether a continuation cursor is present. -/
structure WPage where
  hasDataGet : Bool
  hashes : List (Option String)
  cursor : Bool

/-- Fold the `file_hash` values into the accumulated set (modelled as a
duplicate-free list); Python skips falsy values (`None` and `""`). -/
def collectHashes (objs : List (Option String)) (acc : List String) : List String :=
  objs.foldl
    (fun a h =>
      match h with
      | some s => if s = "" then a else if s ∈ a then a else a ++ [s]
      | none => a)
    acc

/-- The cursor-following `while` loop of `fetch_existing_hashes`
(`src/ingest_pdfs.py` lines 106–118).  Each iteration issues one more
query, whose outcome the environment supplies in `pages`; a raised
exception propagates, and indexing `res["data"]["Get"]` on a page without
it raises a `KeyError`. -/
def fetchLoop : List (Except String WPage) → Bool → List String →
    Except String (List String)
  | _, false, acc => .ok acc
  | [], true, acc => .ok acc
  | .error e :: _, true, _ => .error e
  | .ok r :: rest, true, acc =>
    if r.hasDataGet then fetchLoop rest r.cursor (collectHashes r.hashes acc)
    else .error "KeyError"

/-- Model of `fetch_existing_hashes` (`src/ingest_pdfs.py` lines 83–120): the first
query's outcome is `first`; a response missing `data`/`Get` yields the
empty set, and further pages are fetched while a cursor is present.  There
is no `try`/`except` in the source, so a raised exception propagates. -/
def fetch_existing_hashes (first : Except String WPage)
    (pages : List (Except String WPage)) : Except String (List String) :=
  match first with
  | .error e => .error e
  | .ok r =>
    if r.hasDataGet then fetchLoop pages r.cursor (collectHashes r.hashes [])
    else .ok []

/-- The planning loop of `main` (`src/ingest_pdfs.py` lines 141–147):
hash each candidate in order, skip it when the hash is already stored,
append `(path, hash)` otherwise. -/
def planLoop (fs : String → List Nat) (existing : List String) :
    List String → List (String × String) → List (String × String)
  | [], acc => acc
  | p :: ps, acc =>
    let h := hashFile fs p
    if existing.contains h then planLoop fs existing ps acc
    else planLoop fs existing ps (acc ++ [(p, h)])

/-- The Planner's `to_process` list. -/
def to_process (fs : String → List Nat) (existing : List String)
    (paths : List String) : List (String × String) :=
  planLoop fs existing paths []

/-! ## `src/weaviateDB.py` — connection retry and the Batch Upsert Driver -/

/-- The outcome of one `weaviate.connect_to_weaviate_cloud` attempt: the
call raises, or returns a client that is not ready, or returns a ready
client. -/
inductive ConnAttempt where
  | raises (msg : String)
  | notReady
  | ready
deriving DecidableEq

/-- Whether an attempt produced a ready client. -/
def isReadyAttempt : ConnAttempt → Bool
  | .ready => true
  | _ => false

/-- Python falsiness of `os.environ.get(...)`: `None` or the empty
string. -/
def falsyOpt : Option String → Bool
  | none => true
  | some s => s = ""

/-- The retry loop of `create_weaviate_client` (`src/weaviateDB.py` lines
31–44): `for attempt in range(3)`, return the client of the first ready
attempt; an exception or a not-ready client just moves to the next
attempt.  `.ok i` is the client obtained on attempt `i`; `.error ()` is
`sys.exit(1)`. -/
def connLoop (oracle : Nat → ConnAttempt) : Nat → Nat → Except Unit Nat
  | _, 0 => .error ()
  | i, fuel + 1 =>
    if isReadyAttempt (oracle i) then .ok i else connLoop oracle (i + 1) fuel

/-- Model of `create_weaviate_client` (`src/weaviateDB.py` lines 20–47): missing or
empty `WEAVIATE_URL`/`WEAVIATE_API_KEY` is `sys.exit(1)`; otherwise at
most 3 connection attempts, and exhausting them is `sys.exit(1)`. -/
def create_weaviate_client (env : String → Option String)
    (oracle : Nat → ConnAttempt) : Except Unit Nat :=
  if falsyOpt (env "WEAVIATE_URL") || falsyOpt (env "WEAVIATE_API_KEY") then
    .error ()
  else connLoop oracle 0 3

/-- One candidate of `add_patents_to_collection`: its file name, whether
the path resolution (uppercase then lowercase extension) found a file,
whether `parse_patent_xml` succeeds, whether `batch.add_object` raises,
and the value of the remote `batch.number_errors` counter observed at the
check that follows this item's add step. -/
structure PatentItem where
  name : String
  resolved : Bool
  parseOk : Bool
  addRaises : Bool
  remoteErrors : Nat
deriving DecidableEq

/-- The observable outcome of one batch run: loop iterations executed,
the local error counter, the recorded failing names, and whether the
`> 10` check broke out of the loop early. -/
structure BatchResult where
  attempted : Nat
  errorCount : Nat
  errorNames : List String
  abortedEarly : Bool
deriving DecidableEq

/-- Whether an item reaches the `batch.add_object` step (file found and
XML parsed). -/
def reachesAdd (it : PatentItem) : Bool := it.resolved && it.parseOk

/-- Whether an item increments the local error counter (file not found,
parse error, or `add_object` raising). -/
def localFail (it : PatentItem) : Bool :=
  !it.resolved || !it.parseOk || it.addRaises

/-- The ingestion loop of `add_patents_to_collection`
(`src/weaviateDB.py` lines 93–135).  File-not-found and parse failures
`continue`, skipping the `batch.number_errors > 10` check; an
`add_object` exception is caught and counted, and the check runs for
every item that reached the add step. -/
def addLoop : List PatentItem → Nat → List String → Nat → BatchResult
  | [], ec, ns, att => ⟨att, ec, ns, false⟩
  | it :: rest, ec, ns, att =>
    if !it.resolved then addLoop rest (ec + 1) (ns ++ [it.name]) (att + 1)
    else if !it.parseOk then addLoop rest (ec + 1) (ns ++ [it.name]) (att + 1)
    else
      let ec2 := if it.addRaises then ec + 1 else ec
      let ns2 := if it.addRaises then ns ++ [it.name] else ns
      if it.remoteErrors > 10 then ⟨att + 1, ec2, ns2, true⟩
      else addLoop rest ec2 ns2 (att + 1)

/-- Model of `add_patents_to_collection` (`src/weaviateDB.py` lines 81–142):
process the first `min batch_size data.length` candidates
(`test_db_size = min(batch_size, len(data))`). -/
def add_patents_to_collection (data : List PatentItem) (batch_size : Nat) :
    BatchResult :=
  addLoop (data.take (min batch_size data.length)) 0 [] 0

/-! ## `src/weaviate_server.py` and `src/server.py` — the Query Façade

The external agent (`rag_agent.create_turn` composed with
`EventLogger().log`) is a function from the query string to either a
raised exception or a list of log entries.  The second component of each
endpoint's result counts how many times the agent was invoked. -/

/-- The HTTP-visible outcome of a query request. -/
inductive QueryResult where
  | httpError (status : Nat) (detail : String)
  | ok (response : String)
deriving DecidableEq

/-- Model of `"".join(str(log) + "\n" for log in logs)` followed by
`.strip()`. -/
def renderLogs (logs : List String) : String :=
  pyStrip (strConcat (logs.map (· ++ "\n")))

/-- Model of `query_endpoint` of `src/weaviate_server.py` (lines 140–157): an empty
`user_query` raises `HTTPException(400)` before the agent is called; any
exception from the agent call is mapped to `HTTPException(500)`. -/
def weaviate_query_endpoint (agent : String → Except String (List String))
    (q : String) : QueryResult × Nat :=
  if q = "" then (.httpError 400 "Query cannot be empty", 0)
  else
    match agent q with
    | .error e => (.httpError 500 e, 1)
    | .ok logs => (.ok (renderLogs logs), 1)

/-- Model of `query_endpoint` of `src/server.py` (lines 130–143): no empty-query
check and no exception handling — the agent is always invoked once, and a
raised exception propagates out of the endpoint. -/
def server_query_endpoint (agent : String → Except String (List String))
    (q : String) : Except String QueryResult × Nat :=
  ((agent q).map (fun logs => .ok (renderLogs logs)), 1)

/-! ## General lemmas -/

/-- Folding list append from an accumulator concatenates the blocks. -/
theorem foldl_append_eq (ls : List (List Nat)) :
    ∀ acc : List Nat, ls.foldl (fun a b => a ++ b) acc = acc ++ ls.flatten := by
  induction ls with
  | nil => intro acc; simp
  | cons x xs ih => intro acc; simp [ih, List.append_assoc]

/-- Chunking with sufficient fuel and positive block size loses nothing:
the concatenation of the blocks is the original list. -/
theorem flatten_chunkAux (k : Nat) (hk : 0 < k) :
    ∀ (fuel : Nat) (l : List Nat), l.length ≤ fuel →
    (chunkAux k fuel l).flatten = l := by
  intro fuel
  induction fuel with
  | zero =>
    intro l hl
    have hnil : l = [] := List.length_eq_zero.mp (Nat.le_zero.mp hl)
    subst hnil; rfl
  | succ n ih =>
    intro l hl
    cases l with
    | nil => rfl
    | cons a t =>
      have hlen : ((a :: t).drop k).length ≤ n := by
        rw [List.length_drop]
        simp only [List.length_cons] at hl ⊢
        omega
      show ((a :: t).take k :: chunkAux k n ((a :: t).drop k)).flatten = a :: t
      rw [List.flatten_cons, ih _ hlen, List.take_append_drop]

/-- An in-bounds `getD` is a member of the list. -/
theorem getD_mem_of_lt : ∀ (l : List Char) (i : Nat) (d : Char),
    i < l.length → l.getD i d ∈ l
  | a :: l, 0, _, _ => List.mem_cons_self a l
  | a :: l, i + 1, d, h =>
    List.mem_cons_of_mem a (getD_mem_of_lt l i d (Nat.lt_of_succ_lt_succ h))

/-- Every hex digit is drawn from the hex alphabet. -/
theorem hexDigit_mem (n : Nat) : hexDigit n ∈ hexChars :=
  getD_mem_of_lt hexChars (n % 16) '0' (Nat.mod_lt n (by norm_num))

/-- Length of a string built from an explicit character list. -/
theorem strLen_mk (l : List Char) : (⟨l⟩ : String).length = l.length := rfl

/-- The hex rendering of a byte list has two characters per byte. -/
theorem hexOfBytes_length (bs : List Nat) :
    (hexOfBytes bs).length = 2 * bs.length := by
  unfold hexOfBytes
  rw [strLen_mk]
  induction bs with
  | nil => rfl
  | cons b bs ih => simp only [List.map_cons, List.flatten_cons,
      List.length_append, List.length_cons, ih, byteHex, List.length_nil]; omega

/-- Every character of a hex rendering is a hex digit. -/
theorem hexOfBytes_hex (bs : List Nat) :
    ∀ c ∈ (hexOfBytes bs).data, c ∈ hexChars := by
  intro c hc
  have hc2 : c ∈ (bs.map byteHex).flatten := hc
  rcases List.mem_flatten.mp hc2 with ⟨l, hl, hcl⟩
  rcases List.mem_map.mp hl with ⟨b, _, rfl⟩
  simp only [byteHex, List.mem_cons, List.not_mem_nil, or_false] at hcl
  rcases hcl with rfl | rfl
  · exact hexDigit_mem _
  · exact hexDigit_mem _

/-- The MD5 digest consists of exactly 16 bytes. -/
theorem md5Bytes_length (msg : List Nat) : (md5Bytes msg).length = 16 := by
  unfold md5Bytes
  rcases md5Digest msg with ⟨a, b, c, d⟩
  simp [wordBytesLE]

/-- The MD5 hex digest has exactly 32 characters. -/
theorem md5Hex_length (msg : List Nat) : (md5Hex msg).length = 32 := by
  unfold md5Hex
  rw [hexOfBytes_length, md5Bytes_length]

/-- The MD5 hex digest is a hex string. -/
theorem md5Hex_isHex (msg : List Nat) : isHexString (md5Hex msg) = true := by
  unfold isHexString
  exact decide_eq_true (hexOfBytes_hex _)

/-- Reading a file in 4096-byte blocks and feeding each into the hash
accumulator hashes exactly the file's bytes. -/
theorem compute_file_hash_eq (content : List Nat) :
    compute_file_hash content = md5Hex content := by
  unfold compute_file_hash readBlocks
  rw [foldl_append_eq, flatten_chunkAux 4096 (by norm_num) content.length content
    (Nat.le_refl _)]
  rfl

/-- Characterisation of the planning loop: it appends, in input order, the
pair `(path, hash)` for exactly the paths whose hash is not yet stored. -/
theorem planLoop_eq (fs : String → List Nat) (ex : List String) :
    ∀ (ps : List String) (acc : List (String × String)),
    planLoop fs ex ps acc =
      acc ++ (ps.filter (fun p => !(ex.contains (hashFile fs p)))).map
        (fun p => (p, hashFile fs p)) := by
  intro ps
  induction ps with
  | nil => intro acc; simp [planLoop]
  | cons p ps ih =>
    intro acc
    cases h : ex.contains (hashFile fs p) with
    | true =>
      have hm : hashFile fs p ∈ ex := by simpa using h
      simp [planLoop, h, hm, ih, List.filter_cons]
    | false =>
      have hm : ¬(hashFile fs p ∈ ex) := by simpa using h
      simp [planLoop, h, hm, ih, List.filter_cons, List.append_assoc]

/-- The `to_process` list is the in-order filter of the new candidates. -/
theorem to_process_eq (fs : String → List Nat) (ex : List String)
    (paths : List String) :
    to_process fs ex paths =
      (paths.filter (fun p => !(ex.contains (hashFile fs p)))).map
        (fun p => (p, hashFile fs p)) := by
  unfold to_process
  rw [planLoop_eq]
  rfl

/-- Under well-formed children, the description loop appends exactly the
spec's per-child pieces. -/
theorem descLoop_eq : ∀ (cs : List Node), (∀ c ∈ cs, wfChild c) →
    ∀ acc, descLoop cs acc = some (acc ++ strConcat (cs.map specPiece)) := by
  intro cs
  induction cs with
  | nil =>
    intro _ acc
    simp [descLoop, strConcat, String.append_empty]
  | cons c cs ih =>
    intro h acc
    have hc : wfChild c := h c (List.mem_cons_self c cs)
    have hcs : ∀ x ∈ cs, wfChild x := fun x hx => h x (List.mem_cons_of_mem c hx)
    by_cases hn : c.nodeType = 1
    · rcases hv : c.childValues with _ | ⟨v, rest⟩
      · exact absurd hv (hc hn).1
      · cases v with
        | none =>
          simp [descLoop, specPiece, hn, hv, strConcat, ih hcs acc,
            String.empty_append]
        | some t =>
          have ht : ¬(t = "") := by
            intro hte
            have h2 := (hc hn).2
            rw [hv, hte] at h2
            simp at h2
          by_cases hh : idFirst c.attrId = some 'h'
          · simp [descLoop, specPiece, hn, hv, hh, ht, strConcat,
              ih hcs (acc ++ (pyStrip t ++ ": ")), String.append_assoc]
          · by_cases hp : idFirst c.attrId = some 'p'
            · simp [descLoop, specPiece, hn, hv, hh, hp, ht, strConcat,
                ih hcs (acc ++ (pyStrip t ++ " ")), String.append_assoc]
            · simp [descLoop, specPiece, hn, hv, hh, hp, ht, strConcat,
                ih hcs acc, String.empty_append]
    · simp [descLoop, specPiece, hn, strConcat, ih hcs acc, String.empty_append]

/-- Under well-formed children, `pullDesc` computes the spec's algorithm
with leading and trailing whitespace trimmed. -/
theorem pullDesc_eq_specDesc (cs : List Node) (h : ∀ c ∈ cs, wfChild c) :
    pullDesc cs = some (specDesc cs) := by
  unfold pullDesc specDesc
  rw [descLoop_eq cs h ""]
  simp [String.empty_append]

/-- A description section containing an element child with no child nodes
makes the extractor raise (modelled `none`). -/
theorem descLoop_none : ∀ (cs : List Node),
    (∃ c ∈ cs, c.nodeType = 1 ∧ c.childValues = []) →
    ∀ acc, descLoop cs acc = none := by
  intro cs
  induction cs with
  | nil => intro h; rcases h with ⟨c, hc, _⟩; exact absurd hc (List.not_mem_nil c)
  | cons c cs ih =>
    intro h acc
    rcases h with ⟨c', hc', hprop⟩
    rcases List.mem_cons.mp hc' with rfl | hmem
    · simp [descLoop, hprop.1, hprop.2]
    · by_cases hn : c.nodeType = 1
      · rcases hv : c.childValues with _ | ⟨v, rest⟩
        · simp [descLoop, hn, hv]
        · cases v with
          | none => simpa [descLoop, hn, hv] using ih ⟨c', hmem, hprop⟩ acc
          | some t =>
            by_cases hh : idFirst c.attrId = some 'h'
            · simpa [descLoop, hn, hv, hh] using
                ih ⟨c', hmem, hprop⟩ (acc ++ pyStrip t ++ ": ")
            · by_cases hp : idFirst c.attrId = some 'p'
              · simpa [descLoop, hn, hv, hh, hp] using
                  ih ⟨c', hmem, hprop⟩ (acc ++ pyStrip t ++ " ")
              · simpa [descLoop, hn, hv, hh, hp] using ih ⟨c', hmem, hprop⟩ acc
      · simpa [descLoop, hn] using ih ⟨c', hmem, hprop⟩ acc

/-- An abstract section containing a `p` node with no child nodes makes
the extractor raise (modelled `none`). -/
theorem absLoop_none : ∀ (ps : List Node),
    (∃ p ∈ ps, p.childValues = []) → ∀ acc, absLoop ps acc = none := by
  intro ps
  induction ps with
  | nil => intro h; rcases h with ⟨p, hp, _⟩; exact absurd hp (List.not_mem_nil p)
  | cons p ps ih =>
    intro h acc
    rcases h with ⟨p', hp', hprop⟩
    rcases List.mem_cons.mp hp' with rfl | hmem
    · simp [absLoop, hprop]
    · rcases hv : p.childValues with _ | ⟨v, rest⟩
      · simp [absLoop, hv]
      · simpa [absLoop, hv] using
          ih ⟨p', hmem, hprop⟩ (acc ++ pyStrip (pyShow v) ++ " ")

/-- Names of the locally failing items, in order (the `error_names` list). -/
def failNames (l : List PatentItem) : List String :=
  (l.filter localFail).map PatentItem.name

/-- When no item that reaches the add step ever sees the remote error
counter above 10, the loop runs to the end of the list: every item is
attempted, locally caught failures are counted, and no early abort
occurs. -/
theorem addLoop_no_abort : ∀ (l : List PatentItem),
    (∀ j ∈ l, reachesAdd j = true → j.remoteErrors ≤ 10) →
    ∀ ec ns att, addLoop l ec ns att =
      ⟨att + l.length, ec + l.countP localFail, ns ++ failNames l, false⟩ := by
  intro l
  induction l with
  | nil => intro _ ec ns att; simp [addLoop, failNames]
  | cons it rest ih =>
    intro h ec ns att
    have hrest : ∀ j ∈ rest, reachesAdd j = true → j.remoteErrors ≤ 10 :=
      fun j hj => h j (List.mem_cons_of_mem it hj)
    cases hr : it.resolved with
    | false =>
      have hf : localFail it = true := by simp [localFail, hr]
      simp only [addLoop, hr, Bool.not_false, if_true, ih hrest,
        List.length_cons, List.countP_cons, hf, failNames, List.filter_cons]
      refine BatchResult.mk.injEq .. ▸ ?_
      simp [failNames, hf, List.filter_cons]
      omega
    | true =>
      cases hp : it.parseOk with
      | false =>
        have hf : localFail it = true := by simp [localFail, hp]
        simp only [addLoop, hr, hp, Bool.not_true, Bool.not_false, if_true,
          if_false, ih hrest, List.length_cons, List.countP_cons]
        refine BatchResult.mk.injEq .. ▸ ?_
        simp [failNames, hf, List.filter_cons]
        omega
      | true =>
        have hreach : reachesAdd it = true := by simp [reachesAdd, hr, hp]
        have hrem : ¬(it.remoteErrors > 10) := by
          have := h it (List.mem_cons_self it rest) hreach
          omega
        cases ha : it.addRaises with
        | false =>
          have hf : localFail it = false := by simp [localFail, hr, hp, ha]
          simp only [addLoop, hr, hp, ha, Bool.not_true, if_false, hrem,
            ih hrest, List.length_cons, List.countP_cons]
          refine BatchResult.mk.injEq .. ▸ ?_
          simp [failNames, hf, List.filter_cons, hrem]
          omega
        | true =>
          have hf : localFail it = true := by simp [localFail, ha]
          simp only [addLoop, hr, hp, ha, Bool.not_true, if_false, hrem,
            ih hrest, List.length_cons, List.countP_cons]
          refine BatchResult.mk.injEq .. ▸ ?_
          simp [failNames, hf, List.filter_cons, hrem]
          omega

/-- When the first item whose add-step check sees the remote counter
above 10 is reached, the loop stops right after it: earlier items were
all attempted, later items are left unprocessed. -/
theorem addLoop_abort : ∀ (pre : List PatentItem) (it : PatentItem)
    (rest : List PatentItem),
    (∀ j ∈ pre, reachesAdd j = true → j.remoteErrors ≤ 10) →
    reachesAdd it = true → it.remoteErrors > 10 →
    ∀ ec ns att,
      (addLoop (pre ++ it :: rest) ec ns att).attempted = att + pre.length + 1 ∧
      (addLoop (pre ++ it :: rest) ec ns att).abortedEarly = true := by
  intro pre it rest
  induction pre with
  | nil =>
    intro _ hit hrem ec ns att
    have hr : it.resolved = true := by
      rcases Bool.and_eq_true .. |>.mp hit with ⟨h1, _⟩; exact h1
    have hp : it.parseOk = true := by
      rcases Bool.and_eq_true .. |>.mp hit with ⟨_, h2⟩; exact h2
    cases ha : it.addRaises with
    | false => simp [addLoop, hr, hp, ha, hrem]
    | true => simp [addLoop, hr, hp, ha, hrem]
  | cons p pre' ih =>
    intro h hit hrem ec ns att
    have hpre' : ∀ j ∈ pre', reachesAdd j = true → j.remoteErrors ≤ 10 :=
      fun j hj => h j (List.mem_cons_of_mem p hj)
    have step : ∀ ec2 ns2,
        (addLoop (pre' ++ it :: rest) ec2 ns2 (att + 1)).attempted =
          att + 1 + pre'.length + 1 ∧
        (addLoop (pre' ++ it :: rest) ec2 ns2 (att + 1)).abortedEarly = true :=
      fun ec2 ns2 => ih hpre' hit hrem ec2 ns2 (att + 1)
    cases hr : p.resolved with
    | false =>
      have hstep := step (ec + 1) (ns ++ [p.name])
      constructor
      · simp [addLoop, hr, hstep.1]
        omega
      · simp [addLoop, hr, hstep.2]
    | true =>
      cases hp : p.parseOk with
      | false =>
        have hstep := step (ec + 1) (ns ++ [p.name])
        constructor
        · simp [addLoop, hr, hp, hstep.1]
          omega
        · simp [addLoop, hr, hp, hstep.2]
      | true =>
        have hreach : reachesAdd p = true := by simp [reachesAdd, hr, hp]
        have hprem : ¬(p.remoteErrors > 10) := by
          have := h p (List.mem_cons_self p pre') hreach
          omega
        cases ha : p.addRaises with
        | false =>
          have hstep := step ec ns
          constructor
          · simp [addLoop, hr, hp, ha, hprem, hstep.1]
            omega
          · simp [addLoop, hr, hp, ha, hprem, hstep.2]
        | true =>
          have hstep := step (ec + 1) (ns ++ [p.name])
          constructor
          · simp [addLoop, hr, hp, ha, hprem, hstep.1]
            omega
          · simp [addLoop, hr, hp, ha, hprem, hstep.2]

/-- An attempt that is not `ready` fails the readiness check. -/
theorem isReadyAttempt_eq_false {a : ConnAttempt} (h : a ≠ .ready) :
    isReadyAttempt a = false := by
  cases a with
  | ready => exact absurd rfl h
  | raises m => rfl
  | notReady => rfl

/-! ## Claims -/

/-- Claim C1, counterexample: for a batch of 15 candidates whose items
1–11 all fail (here: parse errors) and items 12–15 succeed, the driver
does not abort after the 11th failure: the local error counter reaches 11
(exceeding the threshold 10) yet all 15 items are attempted and no early
abort occurs, because the abort check reads the remote batch's
`number_errors` counter (here 0) and is skipped entirely by the
`continue` of locally failing items. -/
theorem c1_batch_abort_counterexample :
    (add_patents_to_collection
      (List.replicate 11 ⟨"bad", true, false, false, 0⟩ ++
       List.replicate 4 ⟨"good", true, true, false, 0⟩) 15).attempted = 15 ∧
    (add_patents_to_collection
      (List.replicate 11 ⟨"bad", true, false, false, 0⟩ ++
       List.replicate 4 ⟨"good", true, true, false, 0⟩) 15).errorCount = 11 ∧
    (add_patents_to_collection
      (List.replicate 11 ⟨"bad", true, false, false, 0⟩ ++
       List.replicate 4 ⟨"good", true, true, false, 0⟩) 15).abortedEarly
      = false := by
  refine ⟨rfl, rfl, rfl⟩

/-- Claim C1, amended: per-item failures (file not found, parse error,
batch-add exception) are caught and counted without aborting the batch;
the early-abort check compares the remote batch's `number_errors` counter
(not the local caught-error counter) against the threshold 10 and runs
only for items that reach the batch-add step; when an item's check sees
that counter above 10 the loop stops after that item, leaving the
remainder unattempted; the summary reports the locally counted
failures. -/
theorem c1_batch_abort_policy (bs : Nat) (items pre post : List PatentItem)
    (it : PatentItem)
    (hAll : ∀ j ∈ items.take (min bs items.length),
      reachesAdd j = true → j.remoteErrors ≤ 10)
    (hPre : ∀ j ∈ pre, reachesAdd j = true → j.remoteErrors ≤ 10)
    (hIt : reachesAdd it = true) (hRem : it.remoteErrors > 10)
    (hbs : pre.length < bs) :
    (add_patents_to_collection items bs).abortedEarly = false ∧
    (add_patents_to_collection items bs).attempted = min bs items.length ∧
    (add_patents_to_collection items bs).errorCount =
      (items.take (min bs items.length)).countP localFail ∧
    (add_patents_to_collection (pre ++ it :: post) bs).attempted =
      pre.length + 1 ∧
    (add_patents_to_collection (pre ++ it :: post) bs).abortedEarly = true := by
  have hrun := addLoop_no_abort _ hAll 0 [] 0
  have hmin : min (min bs items.length) items.length = min bs items.length := by
    omega
  have hlen2 : pre.length + 1 ≤ min bs (pre ++ it :: post).length := by
    simp only [List.length_append, List.length_cons]
    omega
  have htake : (pre ++ it :: post).take (min bs (pre ++ it :: post).length) =
      pre ++ it :: post.take
        (min bs (pre ++ it :: post).length - pre.length - 1) := by
    rw [List.take_append_eq_append_take,
      List.take_of_length_le (by omega : pre.length ≤ _)]
    congr 1
    have h1 : min bs (pre ++ it :: post).length - pre.length =
        (min bs (pre ++ it :: post).length - pre.length - 1) + 1 := by omega
    rw [h1, List.take_succ_cons]
    simp
  have habort := addLoop_abort pre it
    (post.take (min bs (pre ++ it :: post).length - pre.length - 1))
    hPre hIt hRem 0 [] 0
  refine ⟨?_, ?_, ?_, ?_, ?_⟩
  · show (addLoop _ 0 [] 0).abortedEarly = false
    rw [hrun]
  · show (addLoop _ 0 [] 0).attempted = min bs items.length
    rw [hrun]
    simp [List.length_take, hmin]
  · show (addLoop _ 0 [] 0).errorCount = _
    rw [hrun]
    simp
  · show (addLoop _ 0 [] 0).attempted = pre.length + 1
    rw [htake]
    simpa using habort.1
  · show (addLoop _ 0 [] 0).abortedEarly = true
    rw [htake]
    exact habort.2

/-- Claim C1, witness: with one healthy item and batch size 2 the run
completes without abort; prepending nothing before an item whose add-step
check sees 11 remote errors stops the run after that single item. -/
theorem c1_batch_abort_policy_witness :
    (add_patents_to_collection [⟨"a", true, true, false, 0⟩] 2).abortedEarly
      = false ∧
    (add_patents_to_collection [⟨"a", true, true, false, 0⟩] 2).attempted =
      min 2 (List.length ([⟨"a", true, true, false, 0⟩] : List PatentItem)) ∧
    (add_patents_to_collection [⟨"a", true, true, false, 0⟩] 2).errorCount =
      (List.take (min 2 (List.length ([⟨"a", true, true, false, 0⟩] : List PatentItem)))
        ([⟨"a", true, true, false, 0⟩] : List PatentItem)).countP localFail ∧
    (add_patents_to_collection
      (([] : List PatentItem) ++ ⟨"b", true, true, false, 11⟩ :: []) 2).attempted
      = List.length ([] : List PatentItem) + 1 ∧
    (add_patents_to_collection
      (([] : List PatentItem) ++ ⟨"b", true, true, false, 11⟩ :: []) 2).abortedEarly
      = true :=
  c1_batch_abort_policy 2 [⟨"a", true, true, false, 0⟩] [] []
    ⟨"b", true, true, false, 11⟩ (by decide) (by decide) (by decide)
    (by decide) (by decide)

/-- Claim C2, counterexample: when the store query raises, the exception
propagates out of `fetch_existing_hashes` instead of yielding the empty
set. -/
theorem c2_fetch_counterexample :
    fetch_existing_hashes (.error "ConnectionError") [] =
      .error "ConnectionError" ∧
    fetch_existing_hashes (.error "ConnectionError") [] ≠
      .ok ([] : List String) := by
  exact ⟨rfl, fun h => Except.noConfusion h⟩

/-- Claim C2, amended: the fail-open behaviour applies only to a query
that returns a response missing the expected `data`/`Get` structure — that
case yields the empty set — while a query that raises an exception
propagates it uncaught to the caller (so the Planner never runs in that
case). -/
theorem c2_fetch_failure_policy (e : String)
    (pages : List (Except String WPage)) (r : WPage)
    (h : r.hasDataGet = false) :
    fetch_existing_hashes (.error e) pages = .error e ∧
    fetch_existing_hashes (.ok r) pages = .ok [] := by
  constructor
  · rfl
  · simp [fetch_existing_hashes, h]

/-- Claim C2, witness: at a concrete raised exception and a concrete
malformed response. -/
theorem c2_fetch_failure_policy_witness :
    fetch_existing_hashes (.error "boom") [] = .error "boom" ∧
    fetch_existing_hashes (.ok ⟨false, [], false⟩) [] = .ok [] :=
  c2_fetch_failure_policy "boom" [] ⟨false, [], false⟩ rfl

/-- Claim C3, counterexample, against the claim as stated: (i) a childless
element child is not skipped — extraction raises (`none`) — although the
stated algorithm yields `some ""`; (ii) a paragraph child whose text is
whitespace-only produces a leading space that `strip()` removes, so the
code returns `"X:"` where the stated trailing-only trim yields `" X:"`;
(iii) an element child with empty text is appended by the code (yielding
`":"`), not skipped as the stated algorithm's `""`. -/
theorem c3_desc_extraction_counterexample :
    pullDesc [⟨1, "q0001", []⟩] = none ∧
    some (specDescStated [⟨1, "q0001", []⟩]) = some "" ∧
    pullDesc [⟨1, "p0001", [some " "]⟩, ⟨1, "h0002", [some "X"]⟩] =
      some "X:" ∧
    specDescStated [⟨1, "p0001", [some " "]⟩, ⟨1, "h0002", [some "X"]⟩] =
      " X:" ∧
    pullDesc [⟨1, "h0001", [some ""]⟩] = some ":" ∧
    specDescStated [⟨1, "h0001", [some ""]⟩] = "" := by
  refine ⟨rfl, rfl, ?_, ?_, ?_, rfl⟩ <;> decide

/-- Claim C3, amended: for description sections in which every element
child has at least one child node and no element child's first child
value is the empty string, extraction walks the direct children in order,
appending trimmed text plus `": "` for an id beginning with `h`, trimmed
text plus `" "` for an id beginning with `p`, and skipping children with
no recognised id prefix, no id attribute, or a valueless first child; the
final string is trimmed of leading and trailing whitespace.  The claim's
example extracts to exactly `"Field of Invention: A widget."`. -/
theorem c3_desc_extraction (cs : List Node) (h : ∀ c ∈ cs, wfChild c) :
    pullDesc cs = some (specDesc cs) ∧
    pullDesc [⟨1, "h0001", [some "Field of Invention"]⟩,
              ⟨1, "p0001", [some "A widget."]⟩] =
      some "Field of Invention: A widget." := by
  refine ⟨pullDesc_eq_specDesc cs h, ?_⟩
  decide

/-- Claim C3, witness: at the claim's own example section. -/
theorem c3_desc_extraction_witness :
    pullDesc [⟨1, "h0001", [some "Field of Invention"]⟩,
              ⟨1, "p0001", [some "A widget."]⟩] =
      some (specDesc [⟨1, "h0001", [some "Field of Invention"]⟩,
                      ⟨1, "p0001", [some "A widget."]⟩]) ∧
    pullDesc [⟨1, "h0001", [some "Field of Invention"]⟩,
              ⟨1, "p0001", [some "A widget."]⟩] =
      some "Field of Invention: A widget." :=
  c3_desc_extraction
    [⟨1, "h0001", [some "Field of Invention"]⟩,
     ⟨1, "p0001", [some "A widget."]⟩] (by decide)

/-- Claim C4: the Planner's `to_process` list contains exactly the
candidates whose fingerprint is absent from the existing set, paired with
their fingerprints, in the original input order (its paths form a
sublist of the input); in particular, for existing set `{A}` and two
candidates with fingerprints `A` and `B`, only the `B` candidate is
planned. -/
theorem c4_planner_diff (fs : String → List Nat) (existing : List String)
    (paths : List String) :
    to_process fs existing paths =
      (paths.filter (fun p => !(existing.contains (hashFile fs p)))).map
        (fun p => (p, hashFile fs p)) ∧
    List.Sublist ((to_process fs existing paths).map Prod.fst) paths ∧
    to_process (fun p => if p = "a.pdf" then [0] else [1])
      [compute_file_hash [0]] ["a.pdf", "b.pdf"] =
      [("b.pdf", compute_file_hash [1])] := by
  refine ⟨to_process_eq fs existing paths, ?_, ?_⟩
  · rw [to_process_eq, List.map_map]
    have hcomp : (Prod.fst ∘ fun p => (p, hashFile fs p)) = id := rfl
    rw [hcomp, List.map_id]
    exact List.filter_sublist _
  · rfl

/-- Claim C5: the Fingerprinter's digest is the 32-character lowercase
hex MD5 digest of the file's bytes; reading in 4096-byte blocks yields
the same digest as hashing the whole byte sequence at once, and the
digest depends only on the bytes, so byte-identical files under
different names receive identical fingerprints. -/
theorem c5_fingerprinter (content : List Nat) :
    compute_file_hash content = md5Hex content ∧
    (compute_file_hash content).length = 32 ∧
    isHexString (compute_file_hash content) = true ∧
    ∀ (fs : String → List Nat) (p1 p2 : String), fs p1 = fs p2 →
      hashFile fs p1 = hashFile fs p2 := by
  refine ⟨compute_file_hash_eq content, ?_, ?_, ?_⟩
  · rw [compute_file_hash_eq]
    exact md5Hex_length content
  · rw [compute_file_hash_eq]
    exact md5Hex_isHex content
  · intro fs p1 p2 h
    unfold hashFile
    rw [h]

/-- Claim C5, witness: at a concrete three-byte file and two names bound
to the same content. -/
theorem c5_fingerprinter_witness :
    compute_file_hash [1, 2, 3] = md5Hex [1, 2, 3] ∧
    (compute_file_hash [1, 2, 3]).length = 32 ∧
    isHexString (compute_file_hash [1, 2, 3]) = true ∧
    hashFile (fun _ => [7]) "a.pdf" = hashFile (fun _ => [7]) "b.pdf" :=
  ⟨(c5_fingerprinter [1, 2, 3]).1, (c5_fingerprinter [1, 2, 3]).2.1,
   (c5_fingerprinter [1, 2, 3]).2.2.1,
   (c5_fingerprinter [1, 2, 3]).2.2.2 (fun _ => [7]) "a.pdf" "b.pdf" rfl⟩

/-- Claim C6, counterexample: the `src/server.py` façade does not reject
the empty query — the stub agent is invoked once (not zero times) and the
request succeeds instead of failing with a client error. -/
theorem c6_empty_query_counterexample :
    (server_query_endpoint (fun _ => .ok ["hi"]) "").2 = 1 ∧
    (server_query_endpoint (fun _ => .ok ["hi"]) "").2 ≠ 0 ∧
    (server_query_endpoint (fun _ => .ok ["hi"]) "").1 =
      .ok (.ok "hi") := by
  refine ⟨rfl, by decide, rfl⟩

/-- Claim C6, amended: the `src/weaviate_server.py` façade rejects an
empty query with a 400 client error before any agent call (the agent
call count stays zero) and surfaces an agent failure on a non-empty
query as a 500 server error; the `src/server.py` façade, by contrast,
performs no empty-query check — it always invokes the agent exactly
once, even for the empty query, and propagates agent exceptions
unmapped. -/
theorem c6_query_facade (agent : String → Except String (List String))
    (q e : String) (hq : ¬(q = "")) (hfail : agent q = .error e) :
    weaviate_query_endpoint agent "" =
      (.httpError 400 "Query cannot be empty", 0) ∧
    weaviate_query_endpoint agent q = (.httpError 500 e, 1) ∧
    (server_query_endpoint agent "").2 = 1 ∧
    (server_query_endpoint agent q).2 = 1 := by
  refine ⟨rfl, ?_, rfl, rfl⟩
  simp [weaviate_query_endpoint, hq, hfail]

/-- Claim C6, witness: at a stub agent that always fails and the query
`"x"`. -/
theorem c6_query_facade_witness :
    weaviate_query_endpoint (fun _ => .error "down") "" =
      (.httpError 400 "Query cannot be empty", 0) ∧
    weaviate_query_endpoint (fun _ => .error "down") "x" =
      (.httpError 500 "down", 1) ∧
    (server_query_endpoint (fun _ => .error "down") "").2 = 1 ∧
    (server_query_endpoint (fun _ => .error "down") "x").2 = 1 :=
  c6_query_facade (fun _ => .error "down") "x" "down" (by decide) rfl

/-- Claim C7: the identifier extraction `strip(".XML")` removes the
character set `{'.', 'X', 'M', 'L'}` from both ends, not just the
extension suffix: for the file attribute `"MXML.XML"` (base name
`"MXML"`) it returns `""` instead of the base name, while on a base name
that neither starts nor ends with one of those characters it happens to
return the base name. -/
theorem c7_id_extraction :
    pullMetaID ("MXML" ++ ".XML") = "" ∧
    ("" : String) ≠ "MXML" ∧
    pullMetaID ("US123-20240101" ++ ".XML") = "US123-20240101" := by
  refine ⟨by decide, by decide, by decide⟩

/-- Claim C8: startup with missing or empty store-connection
configuration exits the process; otherwise connection establishment is
attempted at most 3 times, the client of the first ready attempt (index
below 3) is returned, and when none of the 3 attempts yields a ready
client the process exits. -/
theorem c8_connection_retry (env : String → Option String)
    (oracle : Nat → ConnAttempt) (k : Nat) :
    ((falsyOpt (env "WEAVIATE_URL") || falsyOpt (env "WEAVIATE_API_KEY"))
        = true →
      create_weaviate_client env oracle = .error ()) ∧
    ((falsyOpt (env "WEAVIATE_URL") || falsyOpt (env "WEAVIATE_API_KEY"))
        = false →
      k < 3 → oracle k = .ready → (∀ j, j < k → oracle j ≠ .ready) →
      create_weaviate_client env oracle = .ok k) ∧
    ((falsyOpt (env "WEAVIATE_URL") || falsyOpt (env "WEAVIATE_API_KEY"))
        = false →
      (∀ j, j < 3 → oracle j ≠ .ready) →
      create_weaviate_client env oracle = .error ()) := by
  have hcl : (falsyOpt (env "WEAVIATE_URL") ||
      falsyOpt (env "WEAVIATE_API_KEY")) = false →
      create_weaviate_client env oracle = connLoop oracle 0 3 := by
    intro h
    simp [create_weaviate_client, h]
  have e3 : connLoop oracle 0 3 =
      if isReadyAttempt (oracle 0) then Except.ok 0 else connLoop oracle 1 2 :=
    rfl
  have e2 : connLoop oracle 1 2 =
      if isReadyAttempt (oracle 1) then Except.ok 1 else connLoop oracle 2 1 :=
    rfl
  have e1 : connLoop oracle 2 1 =
      if isReadyAttempt (oracle 2) then Except.ok 2 else connLoop oracle 3 0 :=
    rfl
  have e0 : connLoop oracle 3 0 = Except.error () := rfl
  refine ⟨?_, ?_, ?_⟩
  · intro h
    simp [create_weaviate_client, h]
  · intro h hk hready hfirst
    rw [hcl h]
    interval_cases k
    · rw [e3, hready]
      rfl
    · have hf0 : isReadyAttempt (oracle 0) = false :=
        isReadyAttempt_eq_false (hfirst 0 (by norm_num))
      rw [e3, hf0, if_neg (by simp), e2, hready]
      rfl
    · have hf0 : isReadyAttempt (oracle 0) = false :=
        isReadyAttempt_eq_false (hfirst 0 (by norm_num))
      have hf1 : isReadyAttempt (oracle 1) = false :=
        isReadyAttempt_eq_false (hfirst 1 (by norm_num))
      rw [e3, hf0, if_neg (by simp), e2, hf1, if_neg (by simp), e1, hready]
      rfl
  · intro h hnone
    have hf0 : isReadyAttempt (oracle 0) = false :=
      isReadyAttempt_eq_false (hnone 0 (by norm_num))
    have hf1 : isReadyAttempt (oracle 1) = false :=
      isReadyAttempt_eq_false (hnone 1 (by norm_num))
    have hf2 : isReadyAttempt (oracle 2) = false :=
      isReadyAttempt_eq_false (hnone 2 (by norm_num))
    rw [hcl h, e3, hf0, if_neg (by simp), e2, hf1, if_neg (by simp),
      e1, hf2, if_neg (by simp), e0]

/-- Claim C8, witness: with configuration present and an oracle that is
ready on the first attempt, the client of attempt 0 is returned (the
missing-configuration and exhaustion conjuncts hold vacuously at this
oracle). -/
theorem c8_connection_retry_witness :
    create_weaviate_client (fun _ => some "cfg") (fun _ => .ready) =
      .ok 0 :=
  (c8_connection_retry (fun _ => some "cfg") (fun _ => .ready) 0).2.1 rfl
    (by norm_num) rfl (fun j hj => absurd hj (Nat.not_lt_zero j))

/-- Claim C9: extraction is not total — an element child of the
description section with zero child nodes, or a paragraph node under the
abstract with zero child nodes, makes the extractor index `childNodes[0]`
and raise (modelled `none`), so extraction of that document fails rather
than the child being skipped. -/
theorem c9_extractor_partiality (cs ps : List Node)
    (hdesc : ∃ c ∈ cs, c.nodeType = 1 ∧ c.childValues = [])
    (habs : ∃ p ∈ ps, p.childValues = []) :
    pullDesc cs = none ∧ pullAbs ps = none := by
  constructor
  · unfold pullDesc
    rw [descLoop_none cs hdesc ""]
    rfl
  · unfold pullAbs
    rw [absLoop_none ps habs ""]
    rfl

/-- Claim C9, witness: a description with one childless element child and
an abstract with one childless paragraph node. -/
theorem c9_extractor_partiality_witness :
    pullDesc [⟨1, "h0001", []⟩] = none ∧ pullAbs [⟨0, "", []⟩] = none :=
  c9_extractor_partiality [⟨1, "h0001", []⟩] [⟨0, "", []⟩]
    (by decide) (by decide)

/-- Claim C10: deduplication happens only against the remote
existing-fingerprint set, never among the local candidates: two distinct
paths with identical byte content and a fingerprint absent from the
existing set are both planned in the same run. -/
theorem c10_no_local_dedup (fs : String → List Nat) (existing : List String)
    (paths : List String) (p1 p2 : String)
    (h1 : p1 ∈ paths) (h2 : p2 ∈ paths) (hne : p1 ≠ p2)
    (hcontent : fs p1 = fs p2)
    (hnew : existing.contains (hashFile fs p1) = false) :
    (p1, hashFile fs p1) ∈ to_process fs existing paths ∧
    (p2, hashFile fs p2) ∈ to_process fs existing paths := by
  have hsame : hashFile fs p2 = hashFile fs p1 := by
    unfold hashFile
    rw [hcontent]
  have hnew2 : existing.contains (hashFile fs p2) = false := by
    rw [hsame]
    exact hnew
  have hmem1 : hashFile fs p1 ∉ existing := by simpa using hnew
  have hmem2 : hashFile fs p2 ∉ existing := by simpa using hnew2
  rw [to_process_eq]
  constructor
  · exact List.mem_map.mpr ⟨p1, List.mem_filter.mpr ⟨h1, by simp [hmem1]⟩, rfl⟩
  · exact List.mem_map.mpr ⟨p2, List.mem_filter.mpr ⟨h2, by simp [hmem2]⟩, rfl⟩

/-- Claim C10, witness: two names bound to the same one-byte content and
an empty existing set — both are planned. -/
theorem c10_no_local_dedup_witness :
    ("a", hashFile (fun _ => [7]) "a") ∈
      to_process (fun _ => [7]) [] ["a", "b"] ∧
    ("b", hashFile (fun _ => [7]) "b") ∈
      to_process (fun _ => [7]) [] ["a", "b"] :=
  c10_no_local_dedup (fun _ => [7]) [] ["a", "b"] "a" "b"
    (by decide) (by decide) (by decide) rfl rfl
